import Mathlib

/-!
Verification of the bug-bounty-program finder application (`src/app.py`).

The file shallowly embeds the app's handlers and helpers as pure Lean
functions.  Remote service behaviour (the OpenAI client) is abstracted as
explicit oracle arguments: each remote call site of the Python code is given
the reply (or the exception) the service would produce, and the embedded
handler threads those replies exactly the way the source does.  Time in the
polling loop is idealised: one loop iteration costs one poll interval (the
`time.sleep` between attempts), so the elapsed time at iteration `k` is
`k * poll_interval`.
-/

/-! ## Python truthiness helpers -/

/-- Truthiness of an optional string in Python: `None` and `""` are falsy. -/
def optTruthy : Option String → Bool
  | none => false
  | some s => s ≠ ""

/-- Python `a or b` on two optional strings: the first operand when truthy,
otherwise the second operand. -/
def pyOrStr : Option String → Option String → Option String
  | some s, b => if s = "" then b else some s
  | none, b => b

/-- Python `s.strip()`: remove whitespace from both ends. -/
def pyStrip (s : String) : String :=
  ⟨((s.data.dropWhile Char.isWhitespace).reverse.dropWhile Char.isWhitespace).reverse⟩

/-- Whether `pat` is a leading segment of `l`. -/
def startsWithL : List Char → List Char → Bool
  | _, [] => true
  | [], _ :: _ => false
  | a :: as, b :: bs => a = b && startsWithL as bs

/-- Whether `pat` occurs inside `hay` (contiguously). -/
def occursIn : List Char → List Char → Bool
  | [], pat => pat.isEmpty
  | a :: rest, pat => startsWithL (a :: rest) pat || occursIn rest pat

/-- Python `pat in hay` on strings. -/
def strContains (hay pat : String) : Bool := occursIn hay.data pat.data

/-! ## `wait_until_file_indexed` (src/app.py lines 256-272)

The loop repeatedly lists the active store's files and scans the returned
entries.  A poll attempt is `none` when the listing raised (the exception is
swallowed and the loop sleeps and retries) and `some entries` otherwise. -/

/-- One file entry of a vector-store file listing: `getattr(f, "id", "")`
and `getattr(f, "status", "")`. -/
structure FileEntry where
  id : String
  status : String
deriving DecidableEq, Repr

/-- The inner `for f in data` loop of `wait_until_file_indexed`: scan the
entries in order; the first entry whose id matches and whose status is
terminal decides the return value (`"completed"` for completed/finished, the
raw status for failed/error); all other entries are skipped. -/
def scanEntries (file_id : String) : List FileEntry → Option String
  | [] => none
  | e :: rest =>
    if e.id = file_id then
      if e.status = "completed" ∨ e.status = "finished" then some "completed"
      else if e.status = "failed" ∨ e.status = "error" then some e.status
      else scanEntries file_id rest
    else scanEntries file_id rest

/-- A status the polling loop treats as terminal. -/
def isTerminal (status : String) : Bool :=
  status = "completed" ∨ status = "finished" ∨ status = "failed" ∨ status = "error"

/-- Number of loop iterations before `k * poll_interval < timeout_sec`
fails, i.e. the number of poll attempts the `while` loop can make. -/
def numAttempts (timeout_sec poll_interval : ℚ) : ℕ :=
  ⌈timeout_sec / poll_interval⌉.toNat

/-- The `while time.time() - start < timeout_sec` loop, with the elapsed
time at iteration `k` equal to `k * poll_interval` (one sleep per
iteration, both on the exception path and on the not-yet-terminal path).
`fuel` is the structural-recursion budget; `wait_until_file_indexed`
instantiates it so that it outlasts every iteration the time bound admits. -/
def waitFrom (polls : ℕ → Option (List FileEntry)) (file_id : String)
    (timeout_sec poll_interval : ℚ) : ℕ → ℕ → String
  | 0, _ => "timeout"
  | fuel + 1, k =>
    if (k : ℚ) * poll_interval < timeout_sec then
      match polls k with
      | some entries =>
        match scanEntries file_id entries with
        | some s => s
        | none => waitFrom polls file_id timeout_sec poll_interval fuel (k + 1)
      | none => waitFrom polls file_id timeout_sec poll_interval fuel (k + 1)
    else "timeout"

/-- `wait_until_file_indexed(file_id, timeout_sec, poll_interval)`: poll the
listing oracle until a terminal status is observed or the timeout elapses. -/
def wait_until_file_indexed (polls : ℕ → Option (List FileEntry))
    (file_id : String) (timeout_sec : ℚ := 60) (poll_interval : ℚ := 1) : String :=
  waitFrom polls file_id timeout_sec poll_interval
    (numAttempts timeout_sec poll_interval) 0

/-! ## Response extraction (src/app.py lines 69-87)

The completion's structured output is traversed with a mix of `getattr`
with a default (which never raises) and plain attribute access (which
raises on a missing attribute).  A field of type `Option (Option _)` models
a plain attribute access: the outer `none` is a missing attribute (the
access raises `AttributeError`), `some none` is an attribute holding
Python `None`.  A field of type `Option _` models `getattr(x, f, None)`.
The whole traversal sits in a `try`: an exception replaces `output_text`
with `str(response)` but leaves the `citations` list as accumulated so
far. -/

/-- An annotation entry: `type`, `file_id` and `filename` are all read with
`getattr(..., default)`, so a missing attribute yields the default. -/
structure AnnotationEntry where
  type : Option String
  file_id : Option String
  filename : Option String
deriving DecidableEq, Repr

/-- A collected citation record `{"file_id": ..., "filename": ...}`. -/
structure Citation where
  file_id : String
  filename : String
deriving DecidableEq, Repr

/-- A content block of a message item.  `type` is read via `getattr`
(default `None`); `text` is a plain attribute access (missing → raise);
`annotations` is read via `getattr` (default `None`). -/
structure ContentBlock where
  type : Option String
  text : Option (Option String)
  annotations : Option (List AnnotationEntry)
deriving DecidableEq, Repr

/-- An output item.  `type` is read via `getattr` (default `None`);
`content` is a plain attribute access (missing → raise). -/
structure OutputItem where
  type : Option String
  content : Option (Option (List ContentBlock))
deriving DecidableEq, Repr

/-- A raw completion: `output` is a plain attribute access
(missing → raise); `str` is the value of Python `str(response)`. -/
structure Response where
  output : Option (Option (List OutputItem))
  str : String
deriving DecidableEq, Repr

/-- The `for ann in anns` loop: keep annotations of type `file_citation`,
recording `getattr(ann, "file_id", "")` and `getattr(ann, "filename", "")`. -/
def collectCitations (anns : List AnnotationEntry) : List Citation :=
  anns.filterMap fun a =>
    if a.type = some "file_citation" then
      some ⟨a.file_id.getD "", a.filename.getD ""⟩
    else none

/-- The `for content in (item.content or [])` loop.  The accumulator is
`(output_text, citations)`.  An exception (`content.text` missing on an
`output_text` block) aborts with the citations accumulated so far. -/
def runContents :
    String × List Citation → List ContentBlock →
      Except (List Citation) (String × List Citation)
  | acc, [] => .ok acc
  | acc, c :: rest =>
    if c.type = some "output_text" then
      match c.text with
      | none => .error acc.2
      | some txt =>
        runContents
          (acc.1 ++ txt.getD "", acc.2 ++ collectCitations (c.annotations.getD []))
          rest
    else runContents acc rest

/-- The `for item in (response.output or [])` loop.  An exception
(`item.content` missing on a `message` item, or one propagated from the
content loop) aborts with the citations accumulated so far. -/
def runItems :
    String × List Citation → List OutputItem →
      Except (List Citation) (String × List Citation)
  | acc, [] => .ok acc
  | acc, it :: rest =>
    if it.type = some "message" then
      match it.content with
      | none => .error acc.2
      | some cv =>
        match runContents acc (cv.getD []) with
        | .error cs => .error cs
        | .ok acc2 => runItems acc2 rest
    else runItems acc rest

/-- The whole structured traversal of lines 72-84; `response.output`
missing raises before anything is accumulated. -/
def runTraversal (r : Response) :
    Except (List Citation) (String × List Citation) :=
  match r.output with
  | none => .error []
  | some ov => runItems ("", []) (ov.getD [])

/-- `extract`: the traversal plus the `except` fallback of lines 85-87:
on an exception `output_text` becomes `str(response)` while `citations`
keeps the value it had when the exception was raised. -/
def extract (r : Response) : String × List Citation :=
  match runTraversal r with
  | .ok res => res
  | .error cs => (r.str, cs)

/-- Whether the structured traversal raises on this completion. -/
def traversalFails (r : Response) : Bool :=
  match runTraversal r with
  | .error _ => true
  | .ok _ => false

/-! Specification-side description of `extract` on well-formed completions,
used for the refinement statement: the text is the in-order concatenation
of the text of every `output_text` content block inside every
`message`-type output item, and the citations are the `file_citation`
annotation records of those blocks, in order. -/

/-- The text a block contributes: `content.text or ""`. -/
def blockText (c : ContentBlock) : String := (c.text.getD none).getD ""

/-- Spec-side: in-order concatenation of the text of the `output_text`
blocks of a block list. -/
def concatTexts : List ContentBlock → String
  | [] => ""
  | c :: rest =>
    (if c.type = some "output_text" then blockText c else "") ++ concatTexts rest

/-- Spec-side: in-order citation records of the `output_text` blocks of a
block list. -/
def citesOf : List ContentBlock → List Citation
  | [] => []
  | c :: rest =>
    (if c.type = some "output_text" then collectCitations (c.annotations.getD [])
     else []) ++ citesOf rest

/-- The content blocks of an output item, empty unless the item is a
`message`. -/
def itemBlocks (it : OutputItem) : List ContentBlock :=
  if it.type = some "message" then
    match it.content with
    | some (some l) => l
    | _ => []
  else []

/-- All content blocks of the message items of an item list, in order. -/
def itemsBlocks : List OutputItem → List ContentBlock
  | [] => []
  | it :: rest => itemBlocks it ++ itemsBlocks rest

/-- The output items of a completion (empty when absent). -/
def outputList (r : Response) : List OutputItem :=
  match r.output with
  | some (some l) => l
  | _ => []

/-- Spec-side description of `extract` (§4.4 of the spec): concatenate the
text of every `output_text` content block inside every `message`-type
output item, in order, and collect a citation record for every
`file_citation` annotation of those blocks. -/
def extract_spec (r : Response) : String × List Citation :=
  (concatTexts (itemsBlocks (outputList r)), citesOf (itemsBlocks (outputList r)))

/-- A content block on which the traversal cannot raise. -/
def contentWF (c : ContentBlock) : Bool :=
  if c.type = some "output_text" then c.text.isSome else true

/-- An output item on which the traversal cannot raise. -/
def itemWF (it : OutputItem) : Bool :=
  if it.type = some "message" then
    match it.content with
    | none => false
    | some cv => (cv.getD []).all contentWF
  else true

/-- A completion on which the structured traversal cannot raise
(well-formed shape). -/
def responseWF (r : Response) : Bool :=
  match r.output with
  | none => false
  | some ov => (ov.getD []).all itemWF

/-! ## Session configuration and the `Find Program` handler
(src/app.py lines 8-23, 36-102) -/

/-- The session-scoped configuration: `OPENAI_API_KEY` (default `""`),
`OPENAI_MODEL`, `ACTIVE_VECTOR_STORE_ID` (default `None`). -/
structure Session where
  apiKey : String
  model : String
  activeVectorStoreId : Option String
deriving DecidableEq, Repr

/-- Line 16: `client = OpenAI(...) if st.session_state.get("OPENAI_API_KEY")
else None` — the client exists exactly when the key is a non-empty string. -/
def clientPresent (s : Session) : Bool := s.apiKey ≠ ""

/-- What the `Find Program` handler surfaces. -/
inductive FindOutcome where
  | inputWarning
  | authError
  | noStoreError
  | resultShown (text : String) (citations : List Citation)
  | noOutputInfo
  | errorShown (msg : String)
deriving DecidableEq, Repr

/-- The `Find Program` button handler (lines 36-102).  `completion` is the
reply of `client.responses.create` (`.error e` when the call raises with
message `e`).  The second component records whether the completion service
was called. -/
def findProgramHandler (s : Session) (userText : String)
    (completion : Except String Response) : FindOutcome × Bool :=
  if pyStrip userText = "" then (.inputWarning, false)
  else if !clientPresent s then (.authError, false)
  else if !optTruthy s.activeVectorStoreId then (.noStoreError, false)
  else
    match completion with
    | .error e => (.errorShown ("An error occurred: " ++ e), true)
    | .ok resp =>
      let ex := extract resp
      if ex.1 ≠ "" then (.resultShown ex.1 ex.2, true)
      else (.noOutputInfo, true)

/-! ## `Create New Vector Store` handler (src/app.py lines 125-134) -/

/-- What the `Create New Vector Store` handler surfaces. -/
inductive CreateOutcome where
  | authError
  | created (newId : String)
  | errorShown (msg : String)
deriving DecidableEq, Repr

/-- The `Create New Vector Store` handler.  `remote` is the reply of
`client.vector_stores.create` (the new store id, or an exception).
Returns the outcome, the new `ACTIVE_VECTOR_STORE_ID`, and whether the
remote service was called. -/
def createStoreHandler (s : Session) (remote : Except String String) :
    CreateOutcome × Option String × Bool :=
  if s.apiKey = "" then (.authError, s.activeVectorStoreId, false)
  else
    match remote with
    | .error e =>
      (.errorShown ("Failed to create vector store: " ++ e), s.activeVectorStoreId, true)
    | .ok newId => (.created newId, some newId, true)

/-! ## `list_vector_stores` (src/app.py lines 142-156) -/

/-- A vector store as listed by the service. -/
structure VectorStore where
  id : String
  name : String
deriving DecidableEq, Repr

/-- What `list_vector_stores` surfaces. -/
inductive ListStoresOutcome where
  | stores (l : List VectorStore)
  | noKeyInfo
  | rerunRefresh
  | errorShown (msg : String)
deriving DecidableEq, Repr

/-- `list_vector_stores()`: returns the listing, or an info prompt when no
key/client, or — on an exception — a full-app rerun when the message
contains `"Vector store not found"` (the transient post-deletion 404) and
an error message otherwise. -/
def list_vector_stores (apiKey : String) (hasClient : Bool)
    (remote : Except String (List VectorStore)) : ListStoresOutcome :=
  if apiKey = "" || !hasClient then .noKeyInfo
  else
    match remote with
    | .ok l => .stores l
    | .error e =>
      if strContains e "Vector store not found" then .rerunRefresh
      else .errorShown ("Failed to list vector stores: " ++ e)

/-! ## `Delete Store` handler (src/app.py lines 174-210) -/

/-- A file reference returned by `vector_stores.files.list`: the handler
reads `getattr(ref, "file_id", None) or getattr(ref, "id", None)`. -/
structure FileRef where
  file_id : Option String
  id : Option String
deriving DecidableEq, Repr

/-- The file id the delete loop uses for a reference, `none` when the loop
does `continue` (both attributes missing or falsy). -/
def usableFid (r : FileRef) : Option String :=
  match pyOrStr r.file_id r.id with
  | some s => if s = "" then none else some s
  | none => none

/-- A remote call the `Delete Store` handler can attempt. -/
inductive RemoteCall where
  | listFilesCall (vsId : String)
  | detachCall (vsId fid : String)
  | fileDeleteCall (fid : String)
  | storeDeleteCall (vsId : String)
deriving DecidableEq, Repr

/-- The remote behaviour during one `Delete Store` click: the file listing
(`none` when it raises — the handler then proceeds with `refs = []`),
per-file detach and delete outcomes, and the final store deletion
outcome. -/
structure DeleteOracle where
  listFiles : Option (List FileRef)
  detachOk : String → Bool
  fileDeleteOk : String → Bool
  storeDeleteOk : Bool

/-- What one `Delete Store` click did: the remote calls attempted in
order, whether the overall deletion succeeded, the number of files whose
`files.delete` succeeded, and the resulting active-store id. -/
structure DeleteOutcome where
  calls : List RemoteCall
  success : Bool
  deletedFiles : ℕ
  active : Option String
deriving DecidableEq, Repr

/-- The `for ref in refs` loop (lines 186-200): for every reference with a
usable file id, attempt a detach (result ignored: `except ...: pass`) and
a file delete (failure reported, loop continues), counting successful
deletes. -/
def deleteFilesLoop (o : DeleteOracle) (vsId : String) :
    List FileRef → List RemoteCall × ℕ
  | [] => ([], 0)
  | r :: rest =>
    match usableFid r with
    | none => deleteFilesLoop o vsId rest
    | some fid =>
      let inc := if o.fileDeleteOk fid then 1 else 0
      let tail := deleteFilesLoop o vsId rest
      (.detachCall vsId fid :: .fileDeleteCall fid :: tail.1, inc + tail.2)

/-- The `Delete Store` handler (lines 174-210): list the store's files
(an exception yields `refs = []`), run the best-effort per-file loop, then
attempt the store deletion; only a failure of that last call makes the
operation fail, and the active id is cleared only after a successful
deletion of the active store. -/
def deleteStoreHandler (hasClient : Bool) (o : DeleteOracle) (vsId : String)
    (active : Option String) : DeleteOutcome :=
  if !hasClient then ⟨[], false, 0, active⟩
  else
    let refs := o.listFiles.getD []
    let loopRes := deleteFilesLoop o vsId refs
    let calls := RemoteCall.listFilesCall vsId :: loopRes.1 ++ [RemoteCall.storeDeleteCall vsId]
    if o.storeDeleteOk then
      ⟨calls, true, loopRes.2, if active = some vsId then none else active⟩
    else
      ⟨calls, false, loopRes.2, active⟩

/-! ## Upload handler (src/app.py lines 282-312) -/

/-- The remote behaviour during one `Upload` click, indexed by the position
of the file in the selection: the `files.create` reply (the new file id or
an exception), the `vector_stores.files.create` attach reply, and the
status-listing schedule seen by the indexing poll for that file. -/
structure UploadOracle where
  createFile : ℕ → Except String String
  attach : ℕ → Except String Unit
  polls : ℕ → ℕ → Option (List FileEntry)

/-- What the `Upload` handler surfaces. -/
inductive UploadOutcome where
  | noFilesWarning
  | noStoreError
  | authError
  | finished (results : List (String × String × String)) (failures : List String)
deriving DecidableEq, Repr

/-- One iteration of the upload loop for the `i`-th selected file: upload
to the File API, attach to the active store, then poll with
`timeout_sec = 90` (line 306) and the default 1-second interval.  An
exception anywhere is caught per file. -/
def uploadFileStep (o : UploadOracle) (i : ℕ) (name : String) :
    Except String (String × String × String) :=
  match o.createFile i with
  | .error e => .error ("Failed to upload " ++ name ++ ": " ++ e)
  | .ok fid =>
    match o.attach i with
    | .error e => .error ("Failed to upload " ++ name ++ ": " ++ e)
    | .ok _ => .ok (name, fid, wait_until_file_indexed (o.polls i) fid 90 1)

/-- The strictly sequential `for uf in uploaded_files` loop: per-file
failures are reported and the loop continues with the next file. -/
def uploadLoop (o : UploadOracle) :
    ℕ → List String → List (String × String × String) × List String
  | _, [] => ([], [])
  | i, name :: rest =>
    let (rs, es) := uploadLoop o (i + 1) rest
    match uploadFileStep o i name with
    | .ok r => (r :: rs, es)
    | .error e => (rs, e :: es)

/-- The `Upload` button handler (lines 282-312): the no-files warning, the
no-active-store error and the no-client error are checked in that order
before any remote call; otherwise every selected file is processed in
order.  The second component records whether any remote call was made. -/
def uploadHandler (s : Session) (files : List String) (o : UploadOracle) :
    UploadOutcome × Bool :=
  if files.isEmpty then (.noFilesWarning, false)
  else if !optTruthy s.activeVectorStoreId then (.noStoreError, false)
  else if !clientPresent s then (.authError, false)
  else
    let (rs, es) := uploadLoop o 0 files
    (.finished rs es, true)


/-! # Theorems -/

/-! ## Lemmas about the polling loop -/

/-- Scanning skips every entry that does not match the file id or whose
status is not terminal. -/
theorem scanEntries_eq_none (file_id : String) (entries : List FileEntry)
    (h : ∀ e ∈ entries, e.id = file_id → isTerminal e.status = false) :
    scanEntries file_id entries = none := by
  induction entries with
  | nil => rfl
  | cons e rest ih =>
    have hrest : scanEntries file_id rest = none :=
      ih fun e' he' => h e' (List.mem_cons_of_mem _ he')
    by_cases hid : e.id = file_id
    · have ht := h e (List.mem_cons_self _ _) hid
      simp only [isTerminal, decide_eq_false_iff_not, not_or] at ht
      obtain ⟨h1, h2, h3, h4⟩ := ht
      simp [scanEntries, hid, h1, h2, h3, h4, hrest]
    · simp [scanEntries, hid, hrest]

/-- Scanning passes over a prefix of skipped entries. -/
theorem scanEntries_append_skip (file_id : String) (pre l : List FileEntry)
    (h : ∀ e ∈ pre, e.id = file_id → isTerminal e.status = false) :
    scanEntries file_id (pre ++ l) = scanEntries file_id l := by
  induction pre with
  | nil => rfl
  | cons e rest ih =>
    have hrest := ih fun e' he' => h e' (List.mem_cons_of_mem _ he')
    by_cases hid : e.id = file_id
    · have ht := h e (List.mem_cons_self _ _) hid
      simp only [isTerminal, decide_eq_false_iff_not, not_or] at ht
      obtain ⟨h1, h2, h3, h4⟩ := ht
      simp [scanEntries, hid, h1, h2, h3, h4, hrest]
    · simp [scanEntries, hid, hrest]

/-- An attempt made strictly inside the time window has index below
`numAttempts`. -/
theorem lt_numAttempts {k : ℕ} {t i : ℚ} (hi : 0 < i)
    (h : (k : ℚ) * i < t) : k < numAttempts t i := by
  have h2 : (k : ℚ) < t / i := (lt_div_iff₀ hi).mpr h
  have h3 : (k : ℤ) < ⌈t / i⌉ := by
    rw [Int.lt_ceil]; exact_mod_cast h2
  exact Int.lt_toNat.mpr h3

/-- If every poll attempt inside the time window yields no terminal
status, the loop returns `"timeout"` (whatever the fuel). -/
theorem waitFrom_timeout (polls : ℕ → Option (List FileEntry))
    (file_id : String) (t i : ℚ)
    (h : ∀ (j : ℕ) entries, (j : ℚ) * i < t → polls j = some entries →
      scanEntries file_id entries = none) :
    ∀ fuel k, waitFrom polls file_id t i fuel k = "timeout" := by
  intro fuel
  induction fuel with
  | zero => intro k; rfl
  | succ fuel ih =>
    intro k
    by_cases hk : (k : ℚ) * i < t
    · cases hp : polls k with
      | none =>
        rw [waitFrom]
        simp only [hk, if_true, hp]
        exact ih (k + 1)
      | some entries =>
        have hs := h k entries hk hp
        rw [waitFrom]
        simp only [hk, if_true, hp, hs]
        exact ih (k + 1)
    · rw [waitFrom]
      simp [hk]

/-- If attempt `m` lies inside the time window, every earlier attempt is
non-terminal, and attempt `m` scans to `some s`, the loop returns `s`,
provided the fuel is large enough to reach attempt `m`. -/
theorem waitFrom_hits (polls : ℕ → Option (List FileEntry))
    (file_id : String) (t i : ℚ) (hi : 0 < i) (m : ℕ) (es : List FileEntry)
    (s : String) (hm : (m : ℚ) * i < t)
    (hnt : ∀ (j : ℕ), j < m → ∀ entries, polls j = some entries →
      scanEntries file_id entries = none)
    (hpm : polls m = some es) (hscan : scanEntries file_id es = some s) :
    ∀ fuel k, numAttempts t i ≤ fuel + k → k ≤ m →
      waitFrom polls file_id t i fuel k = s := by
  intro fuel
  induction fuel with
  | zero =>
    intro k hfk hkm
    exact absurd (lt_of_le_of_lt hkm (lt_numAttempts hi hm))
      (not_lt.mpr (by simpa using hfk))
  | succ fuel ih =>
    intro k hfk hkm
    rcases eq_or_lt_of_le hkm with heq | hlt
    · subst heq
      rw [waitFrom]
      simp only [hm, if_true, hpm, hscan]
    · have hk : (k : ℚ) * i < t :=
        lt_trans (by exact mul_lt_mul_of_pos_right (by exact_mod_cast hlt) hi) hm
      have hrec : numAttempts t i ≤ fuel + (k + 1) := by omega
      cases hp : polls k with
      | none =>
        rw [waitFrom]
        simp only [hk, if_true, hp]
        exact ih (k + 1) hrec hlt
      | some entries =>
        have hs := hnt k hlt entries hp
        rw [waitFrom]
        simp only [hk, if_true, hp, hs]
        exact ih (k + 1) hrec hlt

/-- The loop result only depends on the poll attempts whose index lies
inside the time window. -/
theorem waitFrom_congr (file_id : String) (t i : ℚ)
    (polls polls' : ℕ → Option (List FileEntry))
    (h : ∀ (k : ℕ), (k : ℚ) * i < t → polls k = polls' k) :
    ∀ fuel k, waitFrom polls file_id t i fuel k =
      waitFrom polls' file_id t i fuel k := by
  intro fuel
  induction fuel with
  | zero => intro k; rfl
  | succ fuel ih =>
    intro k
    rw [waitFrom, waitFrom]
    by_cases hk : (k : ℚ) * i < t
    · simp only [hk, if_true, h k hk]
      cases hp : polls' k with
      | none => exact ih (k + 1)
      | some entries =>
        cases hs : scanEntries file_id entries with
        | none => simp only [hs]; exact ih (k + 1)
        | some s => simp only [hs]
    · simp [hk]

/-- **C1.** For every fileId, timeout and poll interval (one loop iteration
costing one poll interval): when no attempt inside the timeout window shows
the file with a terminal status, the poll returns `"timeout"`; and when the
first terminal observation, inside the window, is an entry for the file with
status in {completed, finished}, it returns `"completed"`, while a first
terminal observation with status in {failed, error} returns that raw status
string verbatim — all intermediate non-terminal attempts (including
swallowed listing exceptions) just sleep one interval and retry. -/
theorem wait_until_file_indexed_spec
    (polls : ℕ → Option (List FileEntry)) (file_id : String)
    (t i : ℚ) (hi : 0 < i) :
    ((∀ (k : ℕ) entries, (k : ℚ) * i < t → polls k = some entries →
        ∀ e ∈ entries, e.id = file_id → isTerminal e.status = false) →
      wait_until_file_indexed polls file_id t i = "timeout")
    ∧ (∀ (m : ℕ) pre e post, (m : ℚ) * i < t →
        (∀ (j : ℕ), j < m → ∀ entries, polls j = some entries →
          ∀ e' ∈ entries, e'.id = file_id → isTerminal e'.status = false) →
        polls m = some (pre ++ e :: post) →
        (∀ e' ∈ pre, e'.id = file_id → isTerminal e'.status = false) →
        e.id = file_id →
        ((e.status = "completed" ∨ e.status = "finished") →
          wait_until_file_indexed polls file_id t i = "completed")
        ∧ ((e.status = "failed" ∨ e.status = "error") →
          wait_until_file_indexed polls file_id t i = e.status)) := by
  constructor
  · intro h
    exact waitFrom_timeout polls file_id t i
      (fun j entries hj hp => scanEntries_eq_none _ _ (h j entries hj hp)) _ 0
  · intro m pre e post hm hprev hpm hpre hid
    have hskip : scanEntries file_id (pre ++ e :: post) =
        scanEntries file_id (e :: post) :=
      scanEntries_append_skip _ _ _ hpre
    have hnt : ∀ (j : ℕ), j < m → ∀ entries, polls j = some entries →
        scanEntries file_id entries = none :=
      fun j hj entries hp => scanEntries_eq_none _ _ (hprev j hj entries hp)
    constructor
    · intro hst
      have hscan : scanEntries file_id (pre ++ e :: post) = some "completed" := by
        rw [hskip]
        rcases hst with h1 | h1 <;> simp [scanEntries, hid, h1]
      exact waitFrom_hits polls file_id t i hi m _ _ hm hnt hpm hscan _ 0
        (by simp) (Nat.zero_le m)
    · intro hst
      have hscan : scanEntries file_id (pre ++ e :: post) = some e.status := by
        rw [hskip]
        rcases hst with h1 | h1 <;> simp [scanEntries, hid, h1]
      exact waitFrom_hits polls file_id t i hi m _ _ hm hnt hpm hscan _ 0
        (by simp) (Nat.zero_le m)

/-- Concrete instances of the polling contract: immediate completion,
a failed entry found behind an unrelated entry, and a never-terminal
status running into the timeout. -/
theorem wait_until_file_indexed_spec_witness :
    wait_until_file_indexed (fun _ => some [⟨"f1", "completed"⟩]) "f1" 60 1 = "completed"
    ∧ wait_until_file_indexed (fun _ => some [⟨"g2", "other"⟩, ⟨"f1", "failed"⟩]) "f1" 60 1 = "failed"
    ∧ wait_until_file_indexed (fun _ => some [⟨"f1", "in_progress"⟩]) "f1" 60 1 = "timeout" := by
  refine ⟨?_, ?_, ?_⟩
  · exact (((wait_until_file_indexed_spec (fun _ => some [⟨"f1", "completed"⟩])
      "f1" 60 1 (by norm_num)).2 0 [] ⟨"f1", "completed"⟩ [] (by norm_num)
      (fun j hj => absurd hj (Nat.not_lt_zero j)) rfl (by simp) rfl).1 (Or.inl rfl))
  · exact (((wait_until_file_indexed_spec
      (fun _ => some [⟨"g2", "other"⟩, ⟨"f1", "failed"⟩])
      "f1" 60 1 (by norm_num)).2 0 [⟨"g2", "other"⟩] ⟨"f1", "failed"⟩ [] (by norm_num)
      (fun j hj => absurd hj (Nat.not_lt_zero j)) rfl (by decide) rfl).2 (Or.inl rfl))
  · refine (wait_until_file_indexed_spec (fun _ => some [⟨"f1", "in_progress"⟩])
      "f1" 60 1 (by norm_num)).1 ?_
    intro k entries _ hp
    injection hp with h'
    subst h'
    decide

/-- **C8.** The indexing poll is a bounded wait: its result depends only on
the poll attempts made strictly inside the timeout budget (one attempt per
poll interval), so the loop makes at most `numAttempts` attempts; at the
upload call site's budget of 90 seconds with the default 1-second interval
that bound is 90 attempts. -/
theorem wait_until_file_indexed_bounded (file_id : String) (t i : ℚ)
    (polls polls' : ℕ → Option (List FileEntry)) :
    ((∀ (k : ℕ), (k : ℚ) * i < t → polls k = polls' k) →
      wait_until_file_indexed polls file_id t i =
        wait_until_file_indexed polls' file_id t i)
    ∧ numAttempts 90 1 = 90
    ∧ ((∀ k < 90, polls k = polls' k) →
      wait_until_file_indexed polls file_id 90 1 =
        wait_until_file_indexed polls' file_id 90 1) := by
  refine ⟨?_, ?_, ?_⟩
  · intro h
    exact waitFrom_congr file_id t i polls polls' h _ 0
  · unfold numAttempts
    rw [div_one, show ((90 : ℚ)) = ((90 : ℕ) : ℚ) by norm_num, Int.ceil_natCast]
    rfl
  · intro h
    refine waitFrom_congr file_id 90 1 polls polls' ?_ _ 0
    intro k hk
    refine h k ?_
    rw [mul_one] at hk
    exact_mod_cast hk

/-- Concrete instance of the boundedness of the poll: two schedules that
agree on the first 90 attempts and differ afterwards give the same
result at the 90-second budget. -/
theorem wait_until_file_indexed_bounded_witness :
    wait_until_file_indexed (fun _ => none) "f" 90 1 =
      wait_until_file_indexed
        (fun k => if k < 90 then none else some [⟨"f", "completed"⟩]) "f" 90 1 := by
  refine (wait_until_file_indexed_bounded "f" 90 1 _ _).2.2 ?_
  intro k hk
  simp [hk]

/-! ## Lemmas about the response extraction -/

/-- Spec-side text concatenation distributes over list append. -/
theorem concatTexts_append (l1 l2 : List ContentBlock) :
    concatTexts (l1 ++ l2) = concatTexts l1 ++ concatTexts l2 := by
  induction l1 with
  | nil => exact (String.empty_append _).symm
  | cons c rest ih =>
    simp only [List.cons_append, concatTexts, List.append_eq, ih, String.append_assoc]

/-- Spec-side citation collection distributes over list append. -/
theorem citesOf_append (l1 l2 : List ContentBlock) :
    citesOf (l1 ++ l2) = citesOf l1 ++ citesOf l2 := by
  induction l1 with
  | nil => rfl
  | cons c rest ih =>
    simp only [List.cons_append, citesOf, List.append_eq, ih, List.append_assoc]

/-- On a list of well-formed content blocks, the content loop cannot raise
and appends exactly the spec-side text and citations to the accumulator. -/
theorem runContents_ok (blocks : List ContentBlock) :
    ∀ acc, blocks.all contentWF = true →
      runContents acc blocks = .ok (acc.1 ++ concatTexts blocks, acc.2 ++ citesOf blocks) := by
  induction blocks with
  | nil =>
    intro acc _
    simp [runContents, concatTexts, citesOf, String.append_empty]
  | cons c rest ih =>
    intro acc h
    rw [List.all_cons, Bool.and_eq_true] at h
    obtain ⟨hc, hrest⟩ := h
    by_cases ht : c.type = some "output_text"
    · have htx : c.text.isSome = true := by
        unfold contentWF at hc
        rwa [if_pos ht] at hc
      obtain ⟨txt, htxt⟩ := Option.isSome_iff_exists.mp htx
      simp only [runContents, ht, if_true, htxt]
      rw [ih _ hrest]
      simp only [concatTexts, citesOf, ht, if_true, blockText, htxt, Option.getD_some]
      rw [String.append_assoc, List.append_assoc]
    · simp only [runContents, ht, if_false]
      rw [ih _ hrest]
      simp only [concatTexts, citesOf, ht, if_false]
      rw [String.empty_append, List.nil_append]

/-- The blocks an item contributes, expressed through its content
attribute. -/
theorem itemBlocks_eq (it : OutputItem) (cv : Option (List ContentBlock))
    (ht : it.type = some "message") (hcv : it.content = some cv) :
    itemBlocks it = cv.getD [] := by
  cases cv <;> simp [itemBlocks, ht, hcv]

/-- On a list of well-formed items, the item loop cannot raise and appends
exactly the spec-side text and citations of all their blocks. -/
theorem runItems_ok (items : List OutputItem) :
    ∀ acc, items.all itemWF = true →
      runItems acc items =
        .ok (acc.1 ++ concatTexts (itemsBlocks items),
             acc.2 ++ citesOf (itemsBlocks items)) := by
  induction items with
  | nil =>
    intro acc _
    simp [runItems, itemsBlocks, concatTexts, citesOf, String.append_empty]
  | cons it rest ih =>
    intro acc h
    rw [List.all_cons, Bool.and_eq_true] at h
    obtain ⟨hit, hrest⟩ := h
    by_cases ht : it.type = some "message"
    · cases hcv : it.content with
      | none =>
        exfalso
        unfold itemWF at hit
        rw [if_pos ht, hcv] at hit
        cases hit
      | some cv =>
        have hall : (cv.getD []).all contentWF = true := by
          unfold itemWF at hit
          rwa [if_pos ht, hcv] at hit
        simp only [runItems, ht, if_true, hcv]
        rw [runContents_ok _ _ hall]
        simp only
        rw [ih _ hrest]
        simp only [itemsBlocks, itemBlocks_eq it cv ht hcv, concatTexts_append,
          citesOf_append, String.append_assoc, List.append_assoc]
    · simp only [runItems, ht, if_false]
      rw [ih _ hrest]
      have hb : itemBlocks it = [] := by simp [itemBlocks, ht]
      simp only [itemsBlocks, hb, List.nil_append]

/-- The output items of a completion whose output attribute is present. -/
theorem outputList_eq (r : Response) (ov : Option (List OutputItem))
    (ho : r.output = some ov) : outputList r = ov.getD [] := by
  cases ov <;> simp [outputList, ho]

/-- **C6.** On every well-formed structured completion, `extract` returns
the in-order concatenation of the text of every `output_text` content
block inside every `message`-type output item together with a citation
record for every `file_citation` annotation of those blocks — i.e. it
agrees with the spec-side description `extract_spec`. -/
theorem extract_structured_correct (r : Response) (h : responseWF r = true) :
    extract r = extract_spec r := by
  cases ho : r.output with
  | none =>
    exfalso
    unfold responseWF at h
    rw [ho] at h
    exact Bool.noConfusion h
  | some ov =>
    have hall : (ov.getD []).all itemWF = true := by
      unfold responseWF at h
      rw [ho] at h
      exact h
    have htrav : runTraversal r = runItems ("", []) (ov.getD []) := by
      unfold runTraversal
      rw [ho]
    unfold extract
    rw [htrav, runItems_ok (ov.getD []) ("", []) hall]
    unfold extract_spec
    rw [outputList_eq r ov ho]
    simp [String.empty_append]

/-- The claim's concrete instance: one message item with one `output_text`
block `"X"` carrying one `file_citation` annotation for file `f1` named
`a.pdf` extracts to text `"X"` and exactly that citation record. -/
theorem extract_structured_correct_witness :
    responseWF ⟨some (some [⟨some "message",
        some (some [⟨some "output_text", some (some "X"),
          some [⟨some "file_citation", some "f1", some "a.pdf"⟩]⟩])⟩]), "RAW"⟩ = true
    ∧ extract ⟨some (some [⟨some "message",
        some (some [⟨some "output_text", some (some "X"),
          some [⟨some "file_citation", some "f1", some "a.pdf"⟩]⟩])⟩]), "RAW"⟩ =
        ("X", [⟨"f1", "a.pdf"⟩]) := by
  constructor
  · rfl
  · rw [extract_structured_correct _ (by rfl)]
    rfl

/-- **C2, counterexample.** A completion whose traversal raises *after* a
citation has been collected (second `output_text` block lacking the `text`
attribute): the fallback text is the stringified completion, but the
citation list is *not* empty — the already-collected citation survives. -/
theorem extract_fallback_counterexample :
    traversalFails ⟨some (some [⟨some "message",
        some (some [⟨some "output_text", some (some "X"),
            some [⟨some "file_citation", some "f1", some "a.pdf"⟩]⟩,
          ⟨some "output_text", none, none⟩])⟩]), "RAW"⟩ = true
    ∧ extract ⟨some (some [⟨some "message",
        some (some [⟨some "output_text", some (some "X"),
            some [⟨some "file_citation", some "f1", some "a.pdf"⟩]⟩,
          ⟨some "output_text", none, none⟩])⟩]), "RAW"⟩ =
        ("RAW", [⟨"f1", "a.pdf"⟩])
    ∧ ([⟨"f1", "a.pdf"⟩] : List Citation) ≠ [] := by
  refine ⟨rfl, rfl, by simp⟩

/-- **C2, amended.** Whenever the structured traversal raises, `extract`
returns the stringified representation of the entire raw completion as the
text (and, being a total function, never raises); the citation list is the
one accumulated up to the failure point — in particular it is empty when
the failure precedes any collection (e.g. a missing `output` attribute). -/
theorem extract_fallback (r : Response) (cs : List Citation)
    (h : runTraversal r = .error cs) :
    extract r = (r.str, cs) ∧ (r.output = none → cs = []) := by
  constructor
  · unfold extract
    rw [h]
  · intro ho
    unfold runTraversal at h
    rw [ho] at h
    injection h with h'
    exact h'.symm

/-- Instance of the amended fallback: a completion with no `output`
attribute falls back to the stringified completion with no citations. -/
theorem extract_fallback_witness :
    extract ⟨none, "RAW"⟩ = ("RAW", []) :=
  (extract_fallback ⟨none, "RAW"⟩ [] rfl).1

/-! ## Lemmas about the `Delete Store` handler -/

/-- The calls attempted by the per-file loop: a detach and a file delete
for every reference with a usable file id, in listing order — independent
of which detaches or deletes fail. -/
theorem deleteFilesLoop_fst (o : DeleteOracle) (vsId : String)
    (refs : List FileRef) :
    (deleteFilesLoop o vsId refs).1 =
      refs.flatMap (fun r =>
        match usableFid r with
        | some fid => [RemoteCall.detachCall vsId fid, RemoteCall.fileDeleteCall fid]
        | none => []) := by
  induction refs with
  | nil => rfl
  | cons r rest ih =>
    cases hu : usableFid r with
    | none => simp [deleteFilesLoop, hu, ih]
    | some fid => simp [deleteFilesLoop, hu, ih]

/-- The full call trace of one `Delete Store` click (client present). -/
theorem deleteStoreHandler_calls (o : DeleteOracle) (vsId : String)
    (active : Option String) :
    (deleteStoreHandler true o vsId active).calls =
      RemoteCall.listFilesCall vsId ::
        (deleteFilesLoop o vsId (o.listFiles.getD [])).1
          ++ [RemoteCall.storeDeleteCall vsId] := by
  unfold deleteStoreHandler
  cases o.storeDeleteOk <;> simp

/-- **C3.** Deleting a collection with attached files first enumerates
them, then attempts one detach and one file delete per listed file (in
order) and finally the collection deletion itself; the attempted calls do
not depend on which per-file operations fail (so a failure on file `k`
prevents neither the attempts on the later files nor the final deletion),
and the overall operation succeeds iff the final collection-deletion call
succeeds. -/
theorem deleteStoreHandler_best_effort (o o2 : DeleteOracle) (vsId : String)
    (active : Option String) (refs : List FileRef)
    (h : o.listFiles = some refs) (h2 : o2.listFiles = some refs) :
    (deleteStoreHandler true o vsId active).calls =
      RemoteCall.listFilesCall vsId ::
        (refs.flatMap fun r =>
          match usableFid r with
          | some fid => [RemoteCall.detachCall vsId fid, RemoteCall.fileDeleteCall fid]
          | none => []) ++ [RemoteCall.storeDeleteCall vsId]
    ∧ (deleteStoreHandler true o2 vsId active).calls =
        (deleteStoreHandler true o vsId active).calls
    ∧ ((deleteStoreHandler true o vsId active).success = true ↔
        o.storeDeleteOk = true) := by
  refine ⟨?_, ?_, ?_⟩
  · rw [deleteStoreHandler_calls, h]
    simp [deleteFilesLoop_fst]
  · rw [deleteStoreHandler_calls, deleteStoreHandler_calls, h, h2]
    simp [deleteFilesLoop_fst]
  · unfold deleteStoreHandler
    cases hs : o.storeDeleteOk <;> simp [hs]

/-- Concrete instance: two attached files, every per-file operation
failing in the first run and succeeding in the second — the attempted call
traces coincide and contain both detach/delete pairs plus the final store
deletion. -/
theorem deleteStoreHandler_best_effort_witness :
    (deleteStoreHandler true
        ⟨some [⟨some "f1", none⟩, ⟨none, some "f2"⟩],
          fun _ => false, fun _ => false, true⟩ "vs1" none).calls =
      [RemoteCall.listFilesCall "vs1", RemoteCall.detachCall "vs1" "f1",
        RemoteCall.fileDeleteCall "f1", RemoteCall.detachCall "vs1" "f2",
        RemoteCall.fileDeleteCall "f2", RemoteCall.storeDeleteCall "vs1"]
    ∧ (deleteStoreHandler true
        ⟨some [⟨some "f1", none⟩, ⟨none, some "f2"⟩],
          fun _ => true, fun _ => true, true⟩ "vs1" none).calls =
      (deleteStoreHandler true
        ⟨some [⟨some "f1", none⟩, ⟨none, some "f2"⟩],
          fun _ => false, fun _ => false, true⟩ "vs1" none).calls := by
  have h := deleteStoreHandler_best_effort
    ⟨some [⟨some "f1", none⟩, ⟨none, some "f2"⟩], fun _ => false, fun _ => false, true⟩
    ⟨some [⟨some "f1", none⟩, ⟨none, some "f2"⟩], fun _ => true, fun _ => true, true⟩
    "vs1" none [⟨some "f1", none⟩, ⟨none, some "f2"⟩] rfl rfl
  exact ⟨h.1.trans (by rfl), h.2.1⟩

/-- **C9.** After a successful deletion of the collection whose id equals
the session's active vector store id, the active id is reset to `none`. -/
theorem deleteStoreHandler_clears_active (o : DeleteOracle) (vsId : String)
    (active : Option String) (hok : o.storeDeleteOk = true)
    (ha : active = some vsId) :
    (deleteStoreHandler true o vsId active).active = none
    ∧ (deleteStoreHandler true o vsId active).success = true := by
  subst ha
  unfold deleteStoreHandler
  simp [hok]

/-- Concrete instance: deleting the active store clears the active id. -/
theorem deleteStoreHandler_clears_active_witness :
    (deleteStoreHandler true ⟨some [], fun _ => true, fun _ => true, true⟩
      "vs1" (some "vs1")).active = none :=
  (deleteStoreHandler_clears_active
    ⟨some [], fun _ => true, fun _ => true, true⟩ "vs1" (some "vs1") rfl rfl).1

/-! ## Credential / input guard theorems -/

/-- **C4, amended.** With no API credential configured no remote call is
ever performed by the query, store-creation or upload actions; the auth
error message is what gets surfaced provided the action's earlier local
checks pass (non-blank input for the query; unconditionally for store
creation; a non-empty file selection and a set active store for the
upload) — otherwise that earlier check's own message is shown instead. -/
theorem no_credential_no_remote_call (s : Session) (hkey : s.apiKey = "") :
    (∀ text completion, (findProgramHandler s text completion).2 = false
      ∧ (pyStrip text ≠ "" →
          (findProgramHandler s text completion).1 = FindOutcome.authError))
    ∧ (∀ remote, (createStoreHandler s remote).2.2 = false
      ∧ (createStoreHandler s remote).1 = CreateOutcome.authError)
    ∧ (∀ files o, (uploadHandler s files o).2 = false
      ∧ (files ≠ [] → optTruthy s.activeVectorStoreId = true →
          (uploadHandler s files o).1 = UploadOutcome.authError)) := by
  have hc : clientPresent s = false := by simp [clientPresent, hkey]
  refine ⟨?_, ?_, ?_⟩
  · intro text completion
    by_cases ht : pyStrip text = ""
    · exact ⟨by simp [findProgramHandler, ht], fun h => absurd ht h⟩
    · exact ⟨by simp [findProgramHandler, ht, hc], fun _ => by
        simp [findProgramHandler, ht, hc]⟩
  · intro remote
    exact ⟨by simp [createStoreHandler, hkey], by simp [createStoreHandler, hkey]⟩
  · intro files o
    by_cases hf : files.isEmpty
    · exact ⟨by simp [uploadHandler, hf],
        fun hne _ => absurd (List.isEmpty_iff.mp hf) hne⟩
    · cases hae : optTruthy s.activeVectorStoreId with
      | false =>
        exact ⟨by simp [uploadHandler, hf, hae],
          fun _ h2 => absurd h2 (by simp [hae])⟩
      | true =>
        exact ⟨by simp [uploadHandler, hf, hae, hc],
          fun _ _ => by simp [uploadHandler, hf, hae, hc]⟩

/-- **C4, counterexample.** The upload action with files selected but no
active store and no credential surfaces the no-active-store error, not the
auth error the claim as stated predicts. -/
theorem no_credential_auth_counterexample :
    (uploadHandler ⟨"", "gpt-4.1-mini", none⟩ ["policy.pdf"]
        ⟨fun _ => .error "e", fun _ => .error "e", fun _ _ => none⟩).1 =
      UploadOutcome.noStoreError
    ∧ UploadOutcome.noStoreError ≠ UploadOutcome.authError :=
  ⟨rfl, fun h => UploadOutcome.noConfusion h⟩

/-- Concrete instances of the amended no-credential behaviour for all three
remote-dependent actions. -/
theorem no_credential_no_remote_call_witness :
    (findProgramHandler ⟨"", "gpt-4.1-mini", some "vs_1"⟩ "example.com"
        (.error "e")).1 = FindOutcome.authError
    ∧ (findProgramHandler ⟨"", "gpt-4.1-mini", some "vs_1"⟩ "example.com"
        (.error "e")).2 = false
    ∧ (createStoreHandler ⟨"", "gpt-4.1-mini", none⟩ (.ok "vs_new")).1 =
        CreateOutcome.authError
    ∧ (uploadHandler ⟨"", "gpt-4.1-mini", some "vs_1"⟩ ["policy.pdf"]
        ⟨fun _ => .error "e", fun _ => .error "e", fun _ _ => none⟩).1 =
        UploadOutcome.authError := by
  refine ⟨?_, ?_, ?_, ?_⟩
  · exact ((no_credential_no_remote_call ⟨"", "gpt-4.1-mini", some "vs_1"⟩ rfl).1
      "example.com" (.error "e")).2 (by decide)
  · exact ((no_credential_no_remote_call ⟨"", "gpt-4.1-mini", some "vs_1"⟩ rfl).1
      "example.com" (.error "e")).1
  · exact ((no_credential_no_remote_call ⟨"", "gpt-4.1-mini", none⟩ rfl).2.1
      (.ok "vs_new")).2
  · exact ((no_credential_no_remote_call ⟨"", "gpt-4.1-mini", some "vs_1"⟩ rfl).2.2
      ["policy.pdf"] ⟨fun _ => .error "e", fun _ => .error "e", fun _ _ => none⟩).2
      (by simp) (by rfl)

/-- **C5, amended.** For every non-blank input, when a credential is
configured but no active collection is set, the query action surfaces the
no-active-vector-store error and does not call the completion service. -/
theorem no_active_store_query_error (s : Session) (text : String)
    (completion : Except String Response)
    (htext : pyStrip text ≠ "") (hkey : s.apiKey ≠ "")
    (hactive : optTruthy s.activeVectorStoreId = false) :
    findProgramHandler s text completion = (FindOutcome.noStoreError, false) := by
  have hc : clientPresent s = true := by simp [clientPresent, hkey]
  simp [findProgramHandler, htext, hc, hactive]

/-- **C5, counterexample.** With a non-empty input and no active collection
but also no credential, the query surfaces the auth error, not the
no-active-vector-store error the claim as stated predicts (the credential
check runs first). -/
theorem no_active_store_query_error_counterexample :
    findProgramHandler ⟨"", "gpt-4.1-mini", none⟩ "example.com" (.error "e") =
      (FindOutcome.authError, false)
    ∧ FindOutcome.authError ≠ FindOutcome.noStoreError :=
  ⟨rfl, fun h => FindOutcome.noConfusion h⟩

/-- Concrete instance of the amended no-active-store behaviour. -/
theorem no_active_store_query_error_witness :
    findProgramHandler ⟨"sk-abc", "gpt-4.1-mini", none⟩ "example.com"
      (.error "e") = (FindOutcome.noStoreError, false) :=
  no_active_store_query_error ⟨"sk-abc", "gpt-4.1-mini", none⟩ "example.com"
    (.error "e") (by decide) (by decide) rfl

/-- **C10.** For every whitespace-only (or empty) input the query action
surfaces the input-required warning and performs no remote call, whatever
the credential and active-store state — in particular with blank input and
no credential the warning, not the auth error, is what the user sees. -/
theorem blank_input_warning (s : Session) (text : String)
    (completion : Except String Response) (h : pyStrip text = "") :
    findProgramHandler s text completion = (FindOutcome.inputWarning, false)
    ∧ FindOutcome.inputWarning ≠ FindOutcome.authError :=
  ⟨by simp [findProgramHandler, h], fun hc => FindOutcome.noConfusion hc⟩

/-- Concrete instance: whitespace-only input in a session with no
credential yields the input warning, with no remote call. -/
theorem blank_input_warning_witness :
    findProgramHandler ⟨"", "gpt-4.1-mini", none⟩ "   " (.error "e") =
      (FindOutcome.inputWarning, false) :=
  (blank_input_warning ⟨"", "gpt-4.1-mini", none⟩ "   " (.error "e") (by decide)).1

/-- **C7.** When listing vector stores raises, a message containing
`"Vector store not found"` (the transient post-deletion 404) triggers one
automatic full refresh (`st.rerun`) instead of surfacing an error, while
any other remote error message is surfaced as an error. -/
theorem list_vector_stores_transient_retry (key e : String) (hkey : key ≠ "") :
    (strContains e "Vector store not found" = true →
      list_vector_stores key true (.error e) = ListStoresOutcome.rerunRefresh)
    ∧ (strContains e "Vector store not found" = false →
      list_vector_stores key true (.error e) =
        ListStoresOutcome.errorShown ("Failed to list vector stores: " ++ e))
    ∧ ListStoresOutcome.rerunRefresh ≠
        ListStoresOutcome.errorShown ("Failed to list vector stores: " ++ e) := by
  refine ⟨?_, ?_, fun hc => ListStoresOutcome.noConfusion hc⟩
  · intro h
    simp [list_vector_stores, hkey, h]
  · intro h
    simp [list_vector_stores, hkey, h]

/-- Concrete instances: a transient 404 message reruns; another error
message is surfaced. -/
theorem list_vector_stores_transient_retry_witness :
    list_vector_stores "sk-abc" true (.error "404 Vector store not found") =
      ListStoresOutcome.rerunRefresh
    ∧ list_vector_stores "sk-abc" true (.error "rate limit exceeded") =
        ListStoresOutcome.errorShown
          ("Failed to list vector stores: " ++ "rate limit exceeded") :=
  ⟨(list_vector_stores_transient_retry "sk-abc" "404 Vector store not found"
      (by decide)).1 (by decide),
   (list_vector_stores_transient_retry "sk-abc" "rate limit exceeded"
      (by decide)).2.1 (by decide)⟩
